import Mathlib

/-!
Verification of the mpsync change-coalescing dispatcher against its design
specification.  The definitions below are a shallow embedding of
`mpsync.py`: path translation (`str.replace`), the per-event handlers
(`perform_create`, `perform_delete`, `perform_move`, `perform_modify`),
the queue drain of `MPSync.run`, and the connection lifecycle
(`_mpconnect` / `_mpdisconnect`), together with a timed simulation of the
debounce gate (timestamps are in integer milliseconds).
-/

namespace MPSync

/-- Auxiliary, structurally recursive form of Python `s.replace(sub, "")`:
every non-overlapping occurrence of `sub` is removed, scanning left to
right.  Each step consumes at least one character, so `fuel = l.length`
suffices; the fuel only makes the recursion structural. -/
def replaceAllFuel (sub : List Char) : Nat → List Char → List Char
  | 0, l => l
  | _ + 1, [] => []
  | fuel + 1, c :: rest =>
    if sub ≠ [] ∧ sub.isPrefixOf (c :: rest) = true then
      replaceAllFuel sub fuel (List.drop sub.length (c :: rest))
    else
      c :: replaceAllFuel sub fuel rest

/-- Python `l.replace(sub, "")` on character lists. -/
def replaceAll (sub l : List Char) : List Char :=
  replaceAllFuel sub l.length l

/-- The remote path the dispatcher derives from a local path:
`path.replace(self.folder, "")`, the translation step shared by
`_copy_file`, `_create_folder` and `_delete`. -/
def translatePath (folder path : String) : String :=
  ⟨replaceAll folder.data path.data⟩

/-- `occursIn sub l = true` iff `sub` occurs as a contiguous run inside `l`. -/
def occursIn (sub : List Char) : List Char → Bool
  | [] => sub.isPrefixOf []
  | c :: rest => sub.isPrefixOf (c :: rest) || occursIn sub rest

/-- Modelled from the spec: "the remote-side path derived from a local path
by removing the watched root prefix" — removal of the leading occurrence of
the root only.  Used to compare the code's translation with the spec's. -/
def specStripRoot (folder path : String) : String :=
  if folder.data.isPrefixOf path.data then ⟨path.data.drop folder.data.length⟩
  else path

/-! ## Data model: filesystem answers, remote operations, observable outputs -/

/-- Answer of the filesystem queries (`os.path.isfile` / `os.path.isdir`),
the tagged `File | Directory | Missing` variant of the spec. -/
inductive PathKind
  | file
  | directory
  | missing
deriving DecidableEq, Repr

/-- Remote Client operations (`do_put`, `do_mkdir`, `do_rm`). -/
inductive RemoteOp
  | put (localPath remotePath : String)
  | mkdir (remotePath : String)
  | rm (remotePath : String)
deriving DecidableEq, Repr

/-- Observable behaviour of the synchronizer: remote operations, console
messages, and the invocations of `_mpconnect` / `_mpdisconnect` that bracket
a batch. -/
inductive Output
  | op (o : RemoteOp)
  | log (msg : String)
  | errlog (msg : String)
  | connectCall
  | disconnectCall
deriving DecidableEq, Repr

/-- The remote operations contained in an output trace, in order. -/
def opsOf (l : List Output) : List RemoteOp :=
  l.filterMap fun o =>
    match o with
    | Output.op r => some r
    | _ => none

def isConnectCall : Output → Bool
  | Output.connectCall => true
  | _ => false

def isDisconnectCall : Output → Bool
  | Output.disconnectCall => true
  | _ => false

/-- Output produced through the Remote Client's error-reporting hook. -/
def isErrLog : Output → Bool
  | Output.errlog _ => true
  | _ => false

/-- A trace carrying no `_mpconnect` / `_mpdisconnect` invocation marker. -/
def callFree (l : List Output) : Prop :=
  ∀ o ∈ l, isConnectCall o = false ∧ isDisconnectCall o = false

/-- `print("Moving folders not (yet) supported!")` in `perform_move`. -/
def unsupportedMoveMsg : String := "Moving folders not (yet) supported!"

/-- Modelled from the spec: the Remote Client (mpfshell, an external
collaborator) surfaces an operation failure through its error-reporting
hook, never by raising.  `MPSync.__init__` replaces that hook with a no-op
when verbose mode is off, so a failure produces console output only in
verbose mode. -/
def clientErrorLogs (verbose : Bool) (fails : Bool) : List Output :=
  if fails && verbose then [Output.errlog "remote operation failed"] else []

/-- `MPSync._copy_file`: print, `do_put`, plus whatever the client's error
hook emits if the put fails. -/
def copyFile (verbose : Bool) (opFails : RemoteOp → Bool) (folder file : String) :
    List Output :=
  let dst := translatePath folder file
  [Output.log ("Copying " ++ dst), Output.op (RemoteOp.put file dst)] ++
    clientErrorLogs verbose (opFails (RemoteOp.put file dst))

/-- `MPSync._create_folder` (dead code in the source: `perform_create`
never reaches it, see `perform_create`). -/
def createFolder (verbose : Bool) (opFails : RemoteOp → Bool) (folder dir : String) :
    List Output :=
  let dst := translatePath folder dir
  [Output.log ("Creating folder " ++ dst), Output.op (RemoteOp.mkdir dst)] ++
    clientErrorLogs verbose (opFails (RemoteOp.mkdir dst))

/-- `MPSync._delete`: print, `do_rm`. -/
def deletePath (verbose : Bool) (opFails : RemoteOp → Bool) (folder path : String) :
    List Output :=
  let dst := translatePath folder path
  [Output.log ("Deleting " ++ dst), Output.op (RemoteOp.rm dst)] ++
    clientErrorLogs verbose (opFails (RemoteOp.rm dst))

/-- The exception raised by `perform_create` on a non-file path: the code
calls `os.path.isfolder`, an attribute that does not exist in Python's
`os.path` module. -/
def isfolderAttributeError : String :=
  "AttributeError: module os.path has no attribute isfolder"

/-- The exception raised by `_mpdisconnect` when the session still reports
open after `do_close`: the f-string references a name `p` that is not in
scope there. -/
def pNameError : String := "NameError: name p is not defined"

/-- `MPSync.perform_create`.  The result is the list of outputs produced
plus the exception raised, if any: `os.path.isfile` false falls through to
`os.path.isfolder`, which raises `AttributeError` (for directories and
missing paths alike), so `_create_folder` is unreachable. -/
def perform_create (fs : String → PathKind) (verbose : Bool)
    (opFails : RemoteOp → Bool) (folder src_path : String) :
    List Output × Option String :=
  let pre := if verbose then [Output.log ("PERFORMING create " ++ src_path)] else []
  match fs src_path with
  | PathKind.file => (pre ++ copyFile verbose opFails folder src_path, none)
  | _ => (pre, some isfolderAttributeError)

/-- `MPSync.perform_delete`. -/
def perform_delete (verbose : Bool) (opFails : RemoteOp → Bool)
    (folder src_path : String) : List Output × Option String :=
  let pre := if verbose then [Output.log "PERFORMING delete"] else []
  (pre ++ deletePath verbose opFails folder src_path, none)

/-- `MPSync.perform_move`: destination currently a regular file → delete
old translated path then upload the new file; anything else (directory or
missing destination) → the unsupported-move message, no remote call. -/
def perform_move (fs : String → PathKind) (verbose : Bool)
    (opFails : RemoteOp → Bool) (folder src_path dst_path : String) :
    List Output × Option String :=
  let pre := if verbose then [Output.log "PERFORMING move"] else []
  if fs dst_path = PathKind.file then
    (pre ++ deletePath verbose opFails folder src_path ++
      copyFile verbose opFails folder dst_path, none)
  else
    (pre ++ [Output.log unsupportedMoveMsg], none)

/-- `MPSync.perform_modify`: re-upload if currently a regular file, else
silently skip. -/
def perform_modify (fs : String → PathKind) (verbose : Bool)
    (opFails : RemoteOp → Bool) (folder src_path : String) :
    List Output × Option String :=
  let pre := if verbose then [Output.log "PERFORMING modify"] else []
  if fs src_path = PathKind.file then
    (pre ++ copyFile verbose opFails folder src_path, none)
  else
    (pre, none)

/-- A queued change notification, as stored by `_on_created` /
`_on_deleted` / `_on_moved` / `_on_modified`. -/
inductive ChangeEvent
  | create (path : String)
  | delete (path : String)
  | move (src dst : String)
  | modify (path : String)
deriving DecidableEq, Repr

/-- The dispatch of one queued item in the drain loop of `MPSync.run`. -/
def dispatchEvent (fs : String → PathKind) (verbose : Bool)
    (opFails : RemoteOp → Bool) (folder : String) :
    ChangeEvent → List Output × Option String
  | ChangeEvent.create p => perform_create fs verbose opFails folder p
  | ChangeEvent.delete p => perform_delete verbose opFails folder p
  | ChangeEvent.move s d => perform_move fs verbose opFails folder s d
  | ChangeEvent.modify p => perform_modify fs verbose opFails folder p

/-- The inner `while not q.empty()` drain loop of `MPSync.run`: items are
popped and dispatched in FIFO order; an exception raised by a handler
escapes the loop (only `queue.Empty` is caught), leaving the remaining
items in the queue.  Returns (outputs, remaining queue, raised exception). -/
def drainQueue (fs : String → PathKind) (verbose : Bool)
    (opFails : RemoteOp → Bool) (folder : String) :
    List ChangeEvent → List Output × List ChangeEvent × Option String
  | [] => ([], [], none)
  | e :: rest =>
    let r := dispatchEvent fs verbose opFails folder e
    match r.2 with
    | some err => (r.1, rest, some err)
    | none =>
      let d := drainQueue fs verbose opFails folder rest
      (r.1 ++ d.1, d.2.1, d.2.2)

/-! ## Connection lifecycle (`_mpconnect` / `_mpdisconnect`) -/

/-- `MPSync.CONNECT_TRIES`. -/
def CONNECT_TRIES : Nat := 5

/-- The `for i in range(CONNECT_TRIES)` loop of `_mpconnect`: `attempt n`
tells whether the n-th `do_open` leaves the session open.  Returns
(connected, number of `do_open` calls made). -/
def connectLoop (attempt : Nat → Bool) : Nat → Nat → Bool × Nat
  | 0, made => (false, made)
  | k + 1, made =>
    if attempt made then (true, made + 1)
    else connectLoop attempt k (made + 1)

/-- `MPSync._mpconnect`: no-op when the session is already open; the device
address is checked (`os.path.exists` / `os.path.isdir`) inside every
acquire attempt; otherwise up to `CONNECT_TRIES` `do_open` calls.  Returns
(connected, `do_open` calls made, console output). -/
def mpconnect (alreadyOpen portExists portIsDir : Bool) (attempt : Nat → Bool) :
    Bool × Nat × List Output :=
  if alreadyOpen then (true, 0, [])
  else if !portExists || portIsDir then
    (false, 0, [Output.log "Port does not exist or is a folder!"])
  else
    let r := connectLoop attempt CONNECT_TRIES 0
    (r.1, r.2, if r.1 then [] else [Output.log "Could not connect to board!"])

/-- `MPSync._mpdisconnect`: no-op when the session is not open; otherwise
`do_close` runs, and if the session still reports open afterwards the
failure branch evaluates an f-string referencing the undefined name `p`,
raising `NameError` before anything is printed.  Arguments: was the session
open, does it still report open after `do_close`. -/
def mpdisconnect (wasOpen stillOpenAfterClose : Bool) : List Output × Option String :=
  if wasOpen && stillOpenAfterClose then ([], some pNameError)
  else ([], none)

/-- `MPSync._create_watchdog`: startup aborts (`sys.exit(1)`) iff the
watched folder does not exist or is not a directory.  The device address is
not consulted at startup.  Returns the exit status, `none` when startup
proceeds. -/
def createWatchdog (folderExists folderIsDir : Bool) : Option Nat :=
  if !folderExists || !folderIsDir then some 1 else none

/-! ## One iteration of the `MPSync.run` dispatch loop -/

/-- The environment a drain cycle runs against. -/
structure Ctx where
  fs : String → PathKind
  verbose : Bool
  opFails : RemoteOp → Bool
  folder : String
  portExists : Bool
  portIsDir : Bool
  attempt : Nat → Bool
  stillOpenAfterClose : Bool

/-- The body of `MPSync.run` once the debounce gate is open: if the queue
is non-empty, `_mpconnect`; on failure log the retry notice and leave the
queue untouched; on success drain the whole queue and `_mpdisconnect`.  A
handler exception escapes (killing the thread) before `_mpdisconnect` runs.
Returns (trace, remaining queue, session open afterwards, raised
exception). -/
def runCycle (ctx : Ctx) (sessionOpen : Bool) (q : List ChangeEvent) :
    List Output × List ChangeEvent × Bool × Option String :=
  if q.isEmpty then ([], q, sessionOpen, none)
  else
    let c := mpconnect sessionOpen ctx.portExists ctx.portIsDir ctx.attempt
    if c.1 = false then
      (Output.connectCall :: c.2.2 ++
        [Output.log "Could not connect to board! Retrying in 5 seconds"],
       q, sessionOpen, none)
    else
      let d := drainQueue ctx.fs ctx.verbose ctx.opFails ctx.folder q
      match d.2.2 with
      | some e => (Output.connectCall :: c.2.2 ++ d.1, d.2.1, true, some e)
      | none =>
        let dc := mpdisconnect true ctx.stillOpenAfterClose
        (Output.connectCall :: c.2.2 ++ d.1 ++ Output.disconnectCall :: dc.1,
         d.2.1, ctx.stillOpenAfterClose, dc.2)

/-! ## Timed simulation of the debounce gate

Timestamps are integer milliseconds; `time.time() - self._ts > 0.5`
becomes `now - lastTs > 500`. -/

/-- `MPSync.WAITING_TIME` (0.5 s), in milliseconds. -/
def WAITING_TIME_MS : Int := 500

/-- An item on the timeline: a watcher callback enqueueing an event at
time `t` (which also sets `self._ts = time.time()`), or one poll of the
`run` loop's debounce check at time `t`. -/
inductive TLItem
  | arrive (e : ChangeEvent) (t : Int)
  | poll (t : Int)
deriving DecidableEq, Repr

/-- The mutable state of the synchronizer thread. -/
structure SimState where
  q : List ChangeEvent
  lastTs : Int
  sessionOpen : Bool
  dead : Bool
  trace : List Output
deriving DecidableEq, Repr

/-- One timeline step: watcher callbacks append to the queue and update the
timestamp regardless of the dispatcher thread's state; a poll runs the loop
body only while the thread is alive and the quiet period has elapsed. -/
def simStep (ctx : Ctx) (s : SimState) : TLItem → SimState
  | TLItem.arrive e t => { s with q := s.q ++ [e], lastTs := t }
  | TLItem.poll t =>
    if s.dead then s
    else if WAITING_TIME_MS < t - s.lastTs then
      let r := runCycle ctx s.sessionOpen s.q
      { q := r.2.1, lastTs := s.lastTs, sessionOpen := r.2.2.1,
        dead := r.2.2.2.isSome, trace := s.trace ++ r.1 }
    else s

def simulate (ctx : Ctx) : SimState → List TLItem → SimState
  | s, [] => s
  | s, x :: xs => simulate ctx (simStep ctx s x) xs

/-- `calm last items = true` when every item on the timeline happens within
the quiet period of the most recent arrival (`last` is the last-activity
timestamp when the timeline starts): the burst never goes quiet. -/
def calm : Int → List TLItem → Bool
  | _, [] => true
  | last, TLItem.arrive _ t :: rest => decide (t - last ≤ WAITING_TIME_MS) && calm t rest
  | last, TLItem.poll t :: rest => decide (t - last ≤ WAITING_TIME_MS) && calm last rest

/-- The events enqueued along a timeline, in arrival order. -/
def arrivalsOf : List TLItem → List ChangeEvent
  | [] => []
  | TLItem.arrive e _ :: rest => e :: arrivalsOf rest
  | TLItem.poll _ :: rest => arrivalsOf rest

/-- The last-activity timestamp after a timeline runs. -/
def lastArr : Int → List TLItem → Int
  | last, [] => last
  | _, TLItem.arrive _ t :: rest => lastArr t rest
  | last, TLItem.poll _ :: rest => lastArr last rest

/-! ## Concrete environments used to exercise the model -/

/-- Every path is a regular file, no remote operation fails, every
`do_open` succeeds, `do_close` takes effect. -/
def ctxGood : Ctx :=
  ⟨fun _ => PathKind.file, false, fun _ => false, "root", true, false,
    fun _ => true, false⟩

/-- The board never answers: every `do_open` attempt fails. -/
def ctxNoBoard : Ctx :=
  ⟨fun _ => PathKind.file, false, fun _ => false, "root", true, false,
    fun _ => false, false⟩

/-- The configured device address does not exist. -/
def ctxBadPort : Ctx :=
  ⟨fun _ => PathKind.file, false, fun _ => false, "root", false, false,
    fun _ => true, false⟩

/-- `do_close` does not take effect: the session still reports open. -/
def ctxCloseFails : Ctx :=
  ⟨fun _ => PathKind.file, false, fun _ => false, "root", true, false,
    fun _ => true, true⟩

/-- A filesystem where `root/f` is a regular file, `root/d` a directory,
and everything else missing. -/
def fsMixed : String → PathKind := fun p =>
  if p = "root/f" then PathKind.file
  else if p = "root/d" then PathKind.directory
  else PathKind.missing

/-- No remote operation fails. -/
def noFail : RemoteOp → Bool := fun _ => false

/-- Every remote operation fails. -/
def allFail : RemoteOp → Bool := fun _ => true

/-! ## Properties of the path translation -/

theorem exists_of_isPrefixOf :
    ∀ {l1 l2 : List Char}, l1.isPrefixOf l2 = true → ∃ t, l2 = l1 ++ t := by
  intro l1
  induction l1 with
  | nil => intro l2 _; exact ⟨l2, rfl⟩
  | cons a as ih =>
    intro l2 h
    cases l2 with
    | nil => simp [List.isPrefixOf] at h
    | cons b bs =>
      simp only [List.isPrefixOf, Bool.and_eq_true, beq_iff_eq] at h
      obtain ⟨t, ht⟩ := ih h.2
      exact ⟨t, by simp [h.1, ht]⟩

theorem isPrefixOf_append_self (l t : List Char) : l.isPrefixOf (l ++ t) = true := by
  induction l with
  | nil => simp [List.isPrefixOf]
  | cons a as ih => simp [List.isPrefixOf, ih]

theorem replaceAllFuel_nil (sub : List Char) (fuel : Nat) :
    replaceAllFuel sub fuel [] = [] := by
  cases fuel <;> rfl

/-- The fuel argument of `replaceAllFuel` is irrelevant as soon as it covers
the length of the list being scanned. -/
theorem replaceAllFuel_congr (sub : List Char) :
    ∀ f1 f2 l, l.length ≤ f1 → l.length ≤ f2 →
      replaceAllFuel sub f1 l = replaceAllFuel sub f2 l := by
  intro f1
  induction f1 using Nat.strong_induction_on with
  | _ f1 ih =>
    intro f2 l h1 h2
    cases l with
    | nil => rw [replaceAllFuel_nil, replaceAllFuel_nil]
    | cons c rest =>
      have hlen : (c :: rest).length = rest.length + 1 := rfl
      rw [hlen] at h1 h2
      obtain ⟨a, rfl⟩ : ∃ a, f1 = a + 1 := ⟨f1 - 1, by omega⟩
      obtain ⟨b, rfl⟩ : ∃ b, f2 = b + 1 := ⟨f2 - 1, by omega⟩
      by_cases h : sub ≠ [] ∧ sub.isPrefixOf (c :: rest) = true
      · have hs : 1 ≤ sub.length := List.length_pos_of_ne_nil h.1
        have hdrop : (List.drop sub.length (c :: rest)).length ≤ rest.length := by
          simp only [List.length_drop, List.length_cons]
          omega
        rw [replaceAllFuel, if_pos h, replaceAllFuel, if_pos h,
          ih a (Nat.lt_succ_self a) b _ (by omega) (by omega)]
      · rw [replaceAllFuel, if_neg h, replaceAllFuel, if_neg h,
          ih a (Nat.lt_succ_self a) b rest (by omega) (by omega)]

theorem replaceAll_nil (sub : List Char) : replaceAll sub [] = [] := rfl

theorem replaceAll_cons_pos {sub : List Char} {c : Char} {rest : List Char}
    (h : sub ≠ [] ∧ sub.isPrefixOf (c :: rest) = true) :
    replaceAll sub (c :: rest) = replaceAll sub (List.drop sub.length (c :: rest)) := by
  have hs : 1 ≤ sub.length := List.length_pos_of_ne_nil h.1
  have hdrop : (List.drop sub.length (c :: rest)).length ≤ rest.length := by
    simp only [List.length_drop, List.length_cons]
    omega
  rw [replaceAll, replaceAll]
  show replaceAllFuel sub (rest.length + 1) (c :: rest) = _
  rw [replaceAllFuel, if_pos h]
  exact replaceAllFuel_congr sub rest.length _ _ hdrop (le_refl _)

theorem replaceAll_cons_neg {sub : List Char} {c : Char} {rest : List Char}
    (h : ¬(sub ≠ [] ∧ sub.isPrefixOf (c :: rest) = true)) :
    replaceAll sub (c :: rest) = c :: replaceAll sub rest := by
  rw [replaceAll, replaceAll]
  show replaceAllFuel sub (rest.length + 1) (c :: rest) = _
  rw [replaceAllFuel, if_neg h]

theorem replaceAll_of_not_occurs {sub : List Char} :
    ∀ {l : List Char}, occursIn sub l = false → replaceAll sub l = l := by
  intro l
  induction l with
  | nil => intro _; rfl
  | cons c rest ih =>
    intro h
    simp only [occursIn, Bool.or_eq_false_iff] at h
    rw [replaceAll_cons_neg, ih h.2]
    intro hc
    rw [hc.2] at h
    simp at h

theorem replaceAll_append_self {sub t : List Char} (hne : sub ≠ []) :
    replaceAll sub (sub ++ t) = replaceAll sub t := by
  obtain ⟨a, as, rfl⟩ := List.exists_cons_of_ne_nil hne
  rw [List.cons_append, replaceAll_cons_pos]
  · simp
  · exact ⟨by simp, isPrefixOf_append_self (a :: as) t⟩

/-! ## Trace bookkeeping -/

theorem opsOf_append (a b : List Output) : opsOf (a ++ b) = opsOf a ++ opsOf b :=
  List.filterMap_append a b _

theorem opsOf_flatten : ∀ L : List (List Output), opsOf L.flatten = (L.map opsOf).flatten := by
  intro L
  induction L with
  | nil => rfl
  | cons a t ih => simp only [List.flatten_cons, opsOf_append, ih, List.map_cons]

theorem callFree_append {a b : List Output} (ha : callFree a) (hb : callFree b) :
    callFree (a ++ b) := by
  intro o ho
  rcases List.mem_append.mp ho with h | h
  · exact ha o h
  · exact hb o h

theorem callFree_clientErrorLogs (v f : Bool) : callFree (clientErrorLogs v f) := by
  intro o ho
  unfold clientErrorLogs at ho
  split at ho
  · simp only [List.mem_singleton] at ho
    subst ho
    exact ⟨rfl, rfl⟩
  · simp at ho

theorem callFree_pre (b : Bool) (msg : String) :
    callFree (if b then [Output.log msg] else []) := by
  intro o ho
  split at ho
  · simp only [List.mem_singleton] at ho
    subst ho
    exact ⟨rfl, rfl⟩
  · simp at ho

theorem callFree_copyFile (v : Bool) (opf : RemoteOp → Bool) (folder file : String) :
    callFree (copyFile v opf folder file) := by
  unfold copyFile
  refine callFree_append ?_ (callFree_clientErrorLogs _ _)
  intro o ho
  simp only [List.mem_cons, List.not_mem_nil, or_false] at ho
  rcases ho with rfl | rfl
  · exact ⟨rfl, rfl⟩
  · exact ⟨rfl, rfl⟩

theorem callFree_deletePath (v : Bool) (opf : RemoteOp → Bool) (folder path : String) :
    callFree (deletePath v opf folder path) := by
  unfold deletePath
  refine callFree_append ?_ (callFree_clientErrorLogs _ _)
  intro o ho
  simp only [List.mem_cons, List.not_mem_nil, or_false] at ho
  rcases ho with rfl | rfl
  · exact ⟨rfl, rfl⟩
  · exact ⟨rfl, rfl⟩

theorem callFree_dispatchEvent (fs : String → PathKind) (v : Bool)
    (opf : RemoteOp → Bool) (folder : String) (e : ChangeEvent) :
    callFree (dispatchEvent fs v opf folder e).1 := by
  cases e with
  | create p =>
    show callFree (perform_create fs v opf folder p).1
    unfold perform_create
    cases fs p
    · exact callFree_append (callFree_pre _ _) (callFree_copyFile _ _ _ _)
    · exact callFree_pre _ _
    · exact callFree_pre _ _
  | delete p =>
    exact callFree_append (callFree_pre _ _) (callFree_deletePath _ _ _ _)
  | move s d =>
    show callFree (perform_move fs v opf folder s d).1
    simp only [perform_move]
    by_cases hd : fs d = PathKind.file
    · rw [if_pos hd]
      exact callFree_append
        (callFree_append (callFree_pre _ _) (callFree_deletePath _ _ _ _))
        (callFree_copyFile _ _ _ _)
    · rw [if_neg hd]
      refine callFree_append (callFree_pre _ _) ?_
      intro o ho
      simp only [List.mem_singleton] at ho
      subst ho
      exact ⟨rfl, rfl⟩
  | modify p =>
    show callFree (perform_modify fs v opf folder p).1
    simp only [perform_modify]
    by_cases hp : fs p = PathKind.file
    · rw [if_pos hp]
      exact callFree_append (callFree_pre _ _) (callFree_copyFile _ _ _ _)
    · rw [if_neg hp]
      exact callFree_pre _ _

theorem callFree_drainQueue (fs : String → PathKind) (v : Bool)
    (opf : RemoteOp → Bool) (folder : String) :
    ∀ q, callFree (drainQueue fs v opf folder q).1 := by
  intro q
  induction q with
  | nil => intro o ho; simp [drainQueue] at ho
  | cons e rest ih =>
    rcases hr : (dispatchEvent fs v opf folder e).2 with _ | err
    · simp only [drainQueue, hr]
      exact callFree_append (callFree_dispatchEvent _ _ _ _ _) ih
    · simp only [drainQueue, hr]
      exact callFree_dispatchEvent _ _ _ _ _

/-! ## Drain-loop lemmas -/

theorem drainQueue_of_no_err (fs : String → PathKind) (v : Bool)
    (opf : RemoteOp → Bool) (folder : String) :
    ∀ q : List ChangeEvent,
      (∀ e ∈ q, (dispatchEvent fs v opf folder e).2 = none) →
      drainQueue fs v opf folder q
        = ((q.map fun e => (dispatchEvent fs v opf folder e).1).flatten, [], none) := by
  intro q
  induction q with
  | nil => intro _; rfl
  | cons e rest ih =>
    intro h
    have he := h e (List.mem_cons_self e rest)
    have hrest := fun x hx => h x (List.mem_cons_of_mem e hx)
    simp only [drainQueue, he, ih hrest, List.map_cons, List.flatten_cons]

theorem drainQueue_rem_of_no_err (fs : String → PathKind) (v : Bool)
    (opf : RemoteOp → Bool) (folder : String) :
    ∀ q : List ChangeEvent,
      (drainQueue fs v opf folder q).2.2 = none →
      (drainQueue fs v opf folder q).2.1 = [] := by
  intro q
  induction q with
  | nil => intro _; rfl
  | cons e rest ih =>
    intro h
    rcases hr : (dispatchEvent fs v opf folder e).2 with _ | err
    · simp only [drainQueue, hr] at h ⊢
      exact ih h
    · simp [drainQueue, hr] at h

theorem drainQueue_ops_take (fs : String → PathKind) (v : Bool)
    (opf : RemoteOp → Bool) (folder : String) :
    ∀ q : List ChangeEvent, ∃ k, k ≤ q.length ∧
      opsOf (drainQueue fs v opf folder q).1
        = ((q.take k).map fun e => opsOf (dispatchEvent fs v opf folder e).1).flatten := by
  intro q
  induction q with
  | nil => exact ⟨0, Nat.le_refl 0, rfl⟩
  | cons e rest ih =>
    rcases hr : (dispatchEvent fs v opf folder e).2 with _ | err
    · obtain ⟨k, hk, hops⟩ := ih
      refine ⟨k + 1, by simpa using hk, ?_⟩
      simp only [drainQueue, hr, List.take_succ_cons, List.map_cons, List.flatten_cons,
        opsOf_append, hops]
    · refine ⟨1, by simp, ?_⟩
      simp [drainQueue, hr]

/-! ## Connection-manager lemmas -/

theorem connectLoop_made_le (att : Nat → Bool) :
    ∀ k made, (connectLoop att k made).2 ≤ made + k := by
  intro k
  induction k with
  | zero => intro made; simp [connectLoop]
  | succ n ih =>
    intro made
    rw [connectLoop]
    by_cases h : att made = true
    · simp only [h, if_true]
      omega
    · rw [if_neg h]
      have := ih (made + 1)
      omega

theorem mpconnect_tries_le (a pe pid : Bool) (att : Nat → Bool) :
    (mpconnect a pe pid att).2.1 ≤ CONNECT_TRIES := by
  unfold mpconnect
  split
  · simp [CONNECT_TRIES]
  · split
    · simp [CONNECT_TRIES]
    · simpa using connectLoop_made_le att CONNECT_TRIES 0

theorem opsOf_cons_connect (l : List Output) :
    opsOf (Output.connectCall :: l) = opsOf l := rfl

theorem opsOf_cons_disconnect (l : List Output) :
    opsOf (Output.disconnectCall :: l) = opsOf l := rfl

theorem opsOf_cons_log (m : String) (l : List Output) :
    opsOf (Output.log m :: l) = opsOf l := rfl

theorem mpconnect_success_logs {a pe pid : Bool} {att : Nat → Bool}
    (h : (mpconnect a pe pid att).1 = true) : (mpconnect a pe pid att).2.2 = [] := by
  unfold mpconnect at h ⊢
  by_cases ha : a = true
  · rw [if_pos ha]
  · rw [if_neg ha] at h ⊢
    by_cases hp : (!pe || pid) = true
    · rw [if_pos hp] at h
      simp at h
    · rw [if_neg hp] at h ⊢
      show (if (connectLoop att CONNECT_TRIES 0).1 = true then ([] : List Output)
        else [Output.log "Could not connect to board!"]) = []
      rw [if_pos h]

theorem opsOf_mpconnect (a pe pid : Bool) (att : Nat → Bool) :
    opsOf (mpconnect a pe pid att).2.2 = [] := by
  unfold mpconnect
  by_cases ha : a = true
  · rw [if_pos ha]
    rfl
  · rw [if_neg ha]
    by_cases hp : (!pe || pid) = true
    · rw [if_pos hp]
      rfl
    · rw [if_neg hp]
      show opsOf (if (connectLoop att CONNECT_TRIES 0).1 = true then ([] : List Output)
        else [Output.log "Could not connect to board!"]) = []
      split
      · rfl
      · rfl

/-! ## Run-cycle lemmas -/

theorem runCycle_connect_failed (ctx : Ctx) (q : List ChangeEvent)
    (h : (mpconnect false ctx.portExists ctx.portIsDir ctx.attempt).1 = false) :
    (runCycle ctx false q).2.1 = q ∧
    opsOf (runCycle ctx false q).1 = [] ∧
    (runCycle ctx false q).2.2.2 = none ∧
    (runCycle ctx false q).2.2.1 = false := by
  by_cases hq : q.isEmpty
  · simp [runCycle, hq, opsOf]
  · simp only [runCycle, hq, if_false, Bool.false_eq_true, if_pos h]
    refine ⟨by trivial, ?_, by trivial, by trivial⟩
    show opsOf (Output.connectCall ::
      ((mpconnect false ctx.portExists ctx.portIsDir ctx.attempt).2.2 ++
        [Output.log "Could not connect to board! Retrying in 5 seconds"])) = []
    rw [opsOf_cons_connect, opsOf_append, opsOf_mpconnect]
    rfl

theorem runCycle_success (ctx : Ctx) (q : List ChangeEvent) (hq : q.isEmpty = false)
    (hconn : (mpconnect false ctx.portExists ctx.portIsDir ctx.attempt).1 = true)
    (hdrain : (drainQueue ctx.fs ctx.verbose ctx.opFails ctx.folder q).2.2 = none)
    (hclose : ctx.stillOpenAfterClose = false) :
    runCycle ctx false q =
      (Output.connectCall ::
        (drainQueue ctx.fs ctx.verbose ctx.opFails ctx.folder q).1 ++
        [Output.disconnectCall],
       (drainQueue ctx.fs ctx.verbose ctx.opFails ctx.folder q).2.1, false, none) := by
  have hlogs := mpconnect_success_logs hconn
  simp only [runCycle, hq, Bool.false_eq_true, if_false, hconn, hlogs, hdrain,
    mpdisconnect, hclose, Bool.and_false, Bool.false_eq_true]
  simp

/-! ## Simulation lemmas for the debounce gate -/

theorem simulate_append (ctx : Ctx) :
    ∀ (xs ys : List TLItem) (s : SimState),
      simulate ctx s (xs ++ ys) = simulate ctx (simulate ctx s xs) ys := by
  intro xs
  induction xs with
  | nil => intro ys s; rfl
  | cons x t ih =>
    intro ys s
    rw [List.cons_append]
    show simulate ctx (simStep ctx s x) (t ++ ys) = _
    rw [ih]
    rfl

/-- While a burst stays calm, polls never open the debounce gate: the state
just accumulates arrivals in order and tracks the last arrival time. -/
theorem simulate_calm (ctx : Ctx) :
    ∀ (items : List TLItem) (s : SimState),
      calm s.lastTs items = true → s.dead = false →
      simulate ctx s items =
        { s with q := s.q ++ arrivalsOf items,
                 lastTs := lastArr s.lastTs items } := by
  intro items
  induction items with
  | nil =>
    intro s _ _
    cases s
    simp [simulate, arrivalsOf, lastArr]
  | cons x t ih =>
    intro s hcalm hdead
    cases x with
    | arrive e tm =>
      simp only [calm, Bool.and_eq_true, decide_eq_true_eq] at hcalm
      show simulate ctx { s with q := s.q ++ [e], lastTs := tm } t = _
      rw [ih { s with q := s.q ++ [e], lastTs := tm } hcalm.2 hdead]
      simp [arrivalsOf, lastArr]
    | poll tm =>
      simp only [calm, Bool.and_eq_true, decide_eq_true_eq] at hcalm
      have hgate : ¬ (WAITING_TIME_MS < tm - s.lastTs) := by
        have := hcalm.1
        omega
      have step : simStep ctx s (TLItem.poll tm) = s := by
        simp [simStep, hdead, hgate]
      show simulate ctx (simStep ctx s (TLItem.poll tm)) t = _
      rw [step, ih s hcalm.2 hdead]
      simp [arrivalsOf, lastArr]

/-! ## Per-handler operation traces -/

theorem opsOf_pre (b : Bool) (msg : String) :
    opsOf (if b then [Output.log msg] else []) = [] := by
  split
  · rfl
  · rfl

theorem opsOf_clientErrorLogs (v f : Bool) : opsOf (clientErrorLogs v f) = [] := by
  unfold clientErrorLogs
  split
  · rfl
  · rfl

theorem opsOf_copyFile (v : Bool) (opf : RemoteOp → Bool) (folder file : String) :
    opsOf (copyFile v opf folder file)
      = [RemoteOp.put file (translatePath folder file)] := by
  unfold copyFile
  rw [opsOf_append, opsOf_clientErrorLogs, List.append_nil]
  rfl

theorem opsOf_deletePath (v : Bool) (opf : RemoteOp → Bool) (folder path : String) :
    opsOf (deletePath v opf folder path)
      = [RemoteOp.rm (translatePath folder path)] := by
  unfold deletePath
  rw [opsOf_append, opsOf_clientErrorLogs, List.append_nil]
  rfl

theorem countP_connect_of_callFree {l : List Output} (h : callFree l) :
    l.countP isConnectCall = 0 := by
  rw [List.countP_eq_zero]
  intro o ho
  simp [(h o ho).1]

theorem countP_disconnect_of_callFree {l : List Output} (h : callFree l) :
    l.countP isDisconnectCall = 0 := by
  rw [List.countP_eq_zero]
  intro o ho
  simp [(h o ho).2]

/-! ## Claim C1 — path translation -/

/-- C1, counterexample: for the local path `root/root.txt` (the file
`root.txt` inside the watched root `root`), the code's translated remote
path is not the prefix-stripped `/root.txt` the claim demands: Python's
`str.replace` removes every occurrence of the root string, yielding
`/.txt`. -/
theorem C1_counterexample :
    translatePath "root" "root/root.txt" ≠ specStripRoot "root" "root/root.txt" ∧
    translatePath "root" "root/root.txt" = "/.txt" ∧
    specStripRoot "root" "root/root.txt" = "/root.txt" := by
  decide

/-- C1 (amended): the translated remote path is the local path with every
occurrence of the watched-root string removed (`str.replace` semantics);
when the root occurs in the local path only as its leading prefix, this
coincides with removing that prefix — in particular a Create for
`root/a/b.txt` yields `/a/b.txt`. -/
theorem C1_translate_strips_unique_root (folder path : String)
    (hne : folder.data ≠ [])
    (hpre : folder.data.isPrefixOf path.data = true)
    (hrest : occursIn folder.data (path.data.drop folder.data.length) = false) :
    translatePath folder path = specStripRoot folder path := by
  obtain ⟨t, ht⟩ := exists_of_isPrefixOf hpre
  have hdrop : path.data.drop folder.data.length = t := by
    rw [ht, List.drop_left]
  rw [hdrop] at hrest
  simp only [translatePath, specStripRoot, if_pos hpre, hdrop]
  congr 1
  rw [ht, replaceAll_append_self hne, replaceAll_of_not_occurs hrest]

/-- Witness for C1: the translation of `root/a/b.txt` under root `root`
agrees with prefix removal and equals `/a/b.txt`. -/
theorem C1_translate_witness :
    translatePath "root" "root/a/b.txt" = specStripRoot "root" "root/a/b.txt" ∧
    specStripRoot "root" "root/a/b.txt" = "/a/b.txt" :=
  ⟨C1_translate_strips_unique_root "root" "root/a/b.txt" (by decide) (by decide)
      (by decide),
   by decide⟩

/-! ## Claim C2 — Create dispatch -/

/-- C2, evaluation at the failing input: a Create for the directory
`root/d` raises `AttributeError` (the code calls the nonexistent
`os.path.isfolder`) and issues no remote directory-creation call, while a
Create for the regular file `root/f` issues exactly one upload and
completes without raising. -/
theorem C2_create_directory_raises :
    (perform_create fsMixed false noFail "root" "root/d").2
      = some isfolderAttributeError ∧
    opsOf (perform_create fsMixed false noFail "root" "root/d").1 = [] ∧
    perform_create fsMixed false noFail "root" "root/f"
      = ([Output.log "Copying /f", Output.op (RemoteOp.put "root/f" "/f")], none) := by
  decide

/-! ## Claim C3 — release of the session -/

/-- C3, evaluation of `_mpdisconnect`: when the session is open and
`do_close` takes effect, release closes the session quietly, and a release
with the session already closed is a no-op; but when the session still
reports open after `do_close`, the failure branch evaluates an f-string
referencing the undefined name `p` and raises `NameError` — nothing is
logged, and (last conjunct) the exception escapes the batch as a raised
error instead of a non-fatal warning. -/
theorem C3_close_failure_raises :
    mpdisconnect true false = ([], none) ∧
    mpdisconnect false false = ([], none) ∧
    mpdisconnect true true = ([], some pNameError) ∧
    (runCycle ctxCloseFails false [ChangeEvent.create "root/a"]).2.2.2
      = some pNameError := by
  decide

/-! ## Claim C4 — where the device-address check happens -/

/-- C4, counterexample: with a valid watched folder and a nonexistent
device address, startup does not terminate (only the folder is examined by
the watchdog check), and the bad address is instead detected inside the
acquire attempt of a batch: the cycle makes zero `do_open` attempts, keeps
the queue unchanged, and continues without terminating. -/
theorem C4_counterexample :
    createWatchdog true true = none ∧
    mpconnect false ctxBadPort.portExists ctxBadPort.portIsDir ctxBadPort.attempt
      = (false, 0, [Output.log "Port does not exist or is a folder!"]) ∧
    (runCycle ctxBadPort false [ChangeEvent.create "root/a"]).2.1
      = [ChangeEvent.create "root/a"] ∧
    (runCycle ctxBadPort false [ChangeEvent.create "root/a"]).2.2.2 = none := by
  decide

/-- C4 (amended): the fatal startup condition concerns the watched folder
(missing or not a directory → exit status 1 before watching begins); a
device address that does not exist or is a directory is instead detected
inside every acquire attempt and handled as a per-batch connection
failure: zero open attempts, failure reported, queue left unchanged, no
remote operation, no termination. -/
theorem C4_port_check_is_per_batch (folderExists folderIsDir : Bool)
    (ctx : Ctx) (q : List ChangeEvent)
    (hfolder : folderExists = false ∨ folderIsDir = false)
    (hport : ctx.portExists = false ∨ ctx.portIsDir = true) :
    createWatchdog folderExists folderIsDir = some 1 ∧
    mpconnect false ctx.portExists ctx.portIsDir ctx.attempt
      = (false, 0, [Output.log "Port does not exist or is a folder!"]) ∧
    (runCycle ctx false q).2.1 = q ∧
    opsOf (runCycle ctx false q).1 = [] ∧
    (runCycle ctx false q).2.2.2 = none := by
  have hw : createWatchdog folderExists folderIsDir = some 1 := by
    rcases hfolder with h | h <;> simp [createWatchdog, h]
  have hcond : (!ctx.portExists || ctx.portIsDir) = true := by
    rcases hport with h | h <;> simp [h]
  have hmp : mpconnect false ctx.portExists ctx.portIsDir ctx.attempt
      = (false, 0, [Output.log "Port does not exist or is a folder!"]) := by
    unfold mpconnect
    rw [if_neg (by simp), if_pos hcond]
  have hfail : (mpconnect false ctx.portExists ctx.portIsDir ctx.attempt).1 = false := by
    rw [hmp]
  obtain ⟨h1, h2, h3, _⟩ := runCycle_connect_failed ctx q hfail
  exact ⟨hw, hmp, h1, h2, h3⟩

/-- Witness for C4: a missing watched folder is fatal at startup, while
the missing device address of `ctxBadPort` is handled per batch. -/
theorem C4_port_check_witness :
    createWatchdog false true = some 1 ∧
    mpconnect false ctxBadPort.portExists ctxBadPort.portIsDir ctxBadPort.attempt
      = (false, 0, [Output.log "Port does not exist or is a folder!"]) ∧
    (runCycle ctxBadPort false [ChangeEvent.create "root/x"]).2.1
      = [ChangeEvent.create "root/x"] ∧
    opsOf (runCycle ctxBadPort false [ChangeEvent.create "root/x"]).1 = [] ∧
    (runCycle ctxBadPort false [ChangeEvent.create "root/x"]).2.2.2 = none :=
  C4_port_check_is_per_batch false true ctxBadPort [ChangeEvent.create "root/x"]
    (Or.inl rfl) (Or.inl rfl)

/-! ## Claim C5 — Move dispatch -/

/-- C5: a Move whose destination is currently a regular file issues
exactly a remote removal of the translated source path followed by an
upload of the destination file, raising nothing; a Move whose destination
is a directory issues no remote operation, logs the unsupported-move
message exactly once, and raises nothing. -/
theorem C5_move_dispatch (fs : String → PathKind) (v : Bool)
    (opf : RemoteOp → Bool) (folder src dst : String) :
    (fs dst = PathKind.file →
      opsOf (perform_move fs v opf folder src dst).1
        = [RemoteOp.rm (translatePath folder src),
           RemoteOp.put dst (translatePath folder dst)] ∧
      (perform_move fs v opf folder src dst).2 = none) ∧
    (fs dst = PathKind.directory →
      opsOf (perform_move fs v opf folder src dst).1 = [] ∧
      (perform_move fs v opf folder src dst).1.count (Output.log unsupportedMoveMsg)
        = 1 ∧
      (perform_move fs v opf folder src dst).2 = none) := by
  constructor
  · intro hd
    simp only [perform_move, if_pos hd]
    refine ⟨?_, by trivial⟩
    rw [opsOf_append, opsOf_append, opsOf_pre, opsOf_deletePath, opsOf_copyFile]
    rfl
  · intro hd
    have hne : ¬ fs dst = PathKind.file := by
      rw [hd]
      intro hc
      cases hc
    simp only [perform_move, if_neg hne]
    refine ⟨?_, ?_, by trivial⟩
    · rw [opsOf_append, opsOf_pre]
      rfl
    · rw [List.count_append]
      cases v
      · decide
      · decide

/-- Witness for C5: a Move to the regular file `root/f` and a Move to the
directory `root/d` under `fsMixed`. -/
theorem C5_move_witness :
    (opsOf (perform_move fsMixed false noFail "root" "root/s" "root/f").1
        = [RemoteOp.rm (translatePath "root" "root/s"),
           RemoteOp.put "root/f" (translatePath "root" "root/f")] ∧
      (perform_move fsMixed false noFail "root" "root/s" "root/f").2 = none) ∧
    (opsOf (perform_move fsMixed false noFail "root" "root/s" "root/d").1 = [] ∧
      (perform_move fsMixed false noFail "root" "root/s" "root/d").1.count
        (Output.log unsupportedMoveMsg) = 1 ∧
      (perform_move fsMixed false noFail "root" "root/s" "root/d").2 = none) :=
  ⟨(C5_move_dispatch fsMixed false noFail "root" "root/s" "root/f").1 (by decide),
   (C5_move_dispatch fsMixed false noFail "root" "root/s" "root/d").2 (by decide)⟩

/-! ## Claim C6 — bounded acquire, queue preserved on failure -/

/-- C6: an acquire never makes more than CONNECT_TRIES = 5 `do_open`
attempts before reporting its result, and when the acquire of a cycle
fails the cycle issues no remote operation, raises nothing, and leaves the
Action Queue exactly as it was. -/
theorem C6_acquire_bounded (alreadyOpen pe pid : Bool) (att : Nat → Bool)
    (ctx : Ctx) (q : List ChangeEvent) :
    (mpconnect alreadyOpen pe pid att).2.1 ≤ CONNECT_TRIES ∧
    ((mpconnect false ctx.portExists ctx.portIsDir ctx.attempt).1 = false →
      (runCycle ctx false q).2.1 = q ∧
      opsOf (runCycle ctx false q).1 = [] ∧
      (runCycle ctx false q).2.2.2 = none) := by
  refine ⟨mpconnect_tries_le _ _ _ _, fun h => ?_⟩
  obtain ⟨h1, h2, h3, _⟩ := runCycle_connect_failed ctx q h
  exact ⟨h1, h2, h3⟩

/-- Witness for C6: a board that never answers any `do_open`. -/
theorem C6_acquire_witness :
    (mpconnect false true false ctxNoBoard.attempt).2.1 ≤ CONNECT_TRIES ∧
    ((runCycle ctxNoBoard false [ChangeEvent.delete "root/a"]).2.1
        = [ChangeEvent.delete "root/a"] ∧
      opsOf (runCycle ctxNoBoard false [ChangeEvent.delete "root/a"]).1 = [] ∧
      (runCycle ctxNoBoard false [ChangeEvent.delete "root/a"]).2.2.2 = none) :=
  ⟨(C6_acquire_bounded false true false ctxNoBoard.attempt ctxNoBoard
      [ChangeEvent.delete "root/a"]).1,
   (C6_acquire_bounded false true false ctxNoBoard.attempt ctxNoBoard
      [ChangeEvent.delete "root/a"]).2 (by decide)⟩

/-! ## Claim C7 — FIFO order of remote operations -/

/-- C7: the remote operations issued by one drain are the per-event
operations concatenated in arrival order.  Unconditionally the issued
operations equal the ordered concatenation over a prefix of the queue (a
handler exception stops the drain early but never reorders); when no
handler raises, the whole queue is drained in order with nothing left. -/
theorem C7_fifo_order (fs : String → PathKind) (v : Bool)
    (opf : RemoteOp → Bool) (folder : String) (q : List ChangeEvent) :
    (∃ k, k ≤ q.length ∧
      opsOf (drainQueue fs v opf folder q).1
        = ((q.take k).map fun e => opsOf (dispatchEvent fs v opf folder e).1).flatten) ∧
    ((∀ e ∈ q, (dispatchEvent fs v opf folder e).2 = none) →
      (drainQueue fs v opf folder q).1
        = (q.map fun e => (dispatchEvent fs v opf folder e).1).flatten ∧
      (drainQueue fs v opf folder q).2.1 = [] ∧
      opsOf (drainQueue fs v opf folder q).1
        = (q.map fun e => opsOf (dispatchEvent fs v opf folder e).1).flatten) := by
  refine ⟨drainQueue_ops_take fs v opf folder q, fun h => ?_⟩
  have hd := drainQueue_of_no_err fs v opf folder q h
  refine ⟨by rw [hd], by rw [hd], ?_⟩
  rw [hd]
  show opsOf (q.map fun e => (dispatchEvent fs v opf folder e).1).flatten = _
  rw [opsOf_flatten, List.map_map]
  rfl

/-- Witness for C7: a two-event queue over `fsMixed`. -/
theorem C7_fifo_witness :
    (∃ k, k ≤ ([ChangeEvent.create "root/f", ChangeEvent.modify "root/f"]).length ∧
      opsOf (drainQueue fsMixed false noFail "root"
          [ChangeEvent.create "root/f", ChangeEvent.modify "root/f"]).1
        = ((([ChangeEvent.create "root/f", ChangeEvent.modify "root/f"]).take k).map
            fun e => opsOf (dispatchEvent fsMixed false noFail "root" e).1).flatten) ∧
    ((drainQueue fsMixed false noFail "root"
        [ChangeEvent.create "root/f", ChangeEvent.modify "root/f"]).1
      = (([ChangeEvent.create "root/f", ChangeEvent.modify "root/f"]).map
          fun e => (dispatchEvent fsMixed false noFail "root" e).1).flatten ∧
    (drainQueue fsMixed false noFail "root"
        [ChangeEvent.create "root/f", ChangeEvent.modify "root/f"]).2.1 = [] ∧
    opsOf (drainQueue fsMixed false noFail "root"
        [ChangeEvent.create "root/f", ChangeEvent.modify "root/f"]).1
      = (([ChangeEvent.create "root/f", ChangeEvent.modify "root/f"]).map
          fun e => opsOf (dispatchEvent fsMixed false noFail "root" e).1).flatten) :=
  ⟨(C7_fifo_order fsMixed false noFail "root"
      [ChangeEvent.create "root/f", ChangeEvent.modify "root/f"]).1,
   (C7_fifo_order fsMixed false noFail "root"
      [ChangeEvent.create "root/f", ChangeEvent.modify "root/f"]).2 (by decide)⟩

/-! ## Claim C8 — one connect/disconnect cycle per burst -/

/-- C8: a burst that starts with event `e` at time `t1` and whose further
arrivals and polls all happen within the quiet period of the latest
arrival, followed by a poll after the quiet period has elapsed, is served
by exactly one `_mpconnect` and one `_mpdisconnect` invocation bracketing
the remote operations of all burst events (never one cycle per event), and
the whole queue is drained. -/
theorem C8_burst_single_cycle (ctx : Ctx) (e : ChangeEvent) (t1 ts0 T : Int)
    (rest : List TLItem)
    (hcalm : calm t1 rest = true)
    (hT : WAITING_TIME_MS < T - lastArr t1 rest)
    (hconn : (mpconnect false ctx.portExists ctx.portIsDir ctx.attempt).1 = true)
    (hdrain : (drainQueue ctx.fs ctx.verbose ctx.opFails ctx.folder
        (e :: arrivalsOf rest)).2.2 = none)
    (hclose : ctx.stillOpenAfterClose = false) :
    (simulate ctx ⟨[], ts0, false, false, []⟩
        (TLItem.arrive e t1 :: rest ++ [TLItem.poll T])).trace
      = Output.connectCall ::
          (drainQueue ctx.fs ctx.verbose ctx.opFails ctx.folder
            (e :: arrivalsOf rest)).1 ++ [Output.disconnectCall] ∧
    ((simulate ctx ⟨[], ts0, false, false, []⟩
        (TLItem.arrive e t1 :: rest ++ [TLItem.poll T])).trace).countP isConnectCall
      = 1 ∧
    ((simulate ctx ⟨[], ts0, false, false, []⟩
        (TLItem.arrive e t1 :: rest ++ [TLItem.poll T])).trace).countP isDisconnectCall
      = 1 ∧
    (simulate ctx ⟨[], ts0, false, false, []⟩
        (TLItem.arrive e t1 :: rest ++ [TLItem.poll T])).q = [] := by
  have hburst := simulate_calm ctx rest ⟨[e], t1, false, false, []⟩ hcalm rfl
  have hrun := runCycle_success ctx (e :: arrivalsOf rest) rfl hconn hdrain hclose
  have hrem := drainQueue_rem_of_no_err ctx.fs ctx.verbose ctx.opFails ctx.folder
      (e :: arrivalsOf rest) hdrain
  have hfinal : simulate ctx ⟨[], ts0, false, false, []⟩
      (TLItem.arrive e t1 :: rest ++ [TLItem.poll T])
      = { q := [], lastTs := lastArr t1 rest, sessionOpen := false, dead := false,
          trace := Output.connectCall ::
            (drainQueue ctx.fs ctx.verbose ctx.opFails ctx.folder
              (e :: arrivalsOf rest)).1 ++ [Output.disconnectCall] } := by
    show simulate ctx (simStep ctx ⟨[], ts0, false, false, []⟩ (TLItem.arrive e t1))
        (rest ++ [TLItem.poll T]) = _
    have hstep : simStep ctx ⟨[], ts0, false, false, []⟩ (TLItem.arrive e t1)
        = ⟨[e], t1, false, false, []⟩ := rfl
    rw [hstep, simulate_append, hburst]
    show simStep ctx ⟨e :: arrivalsOf rest, lastArr t1 rest, false, false, []⟩
        (TLItem.poll T) = _
    show (if WAITING_TIME_MS < T - lastArr t1 rest then
        let r := runCycle ctx false (e :: arrivalsOf rest)
        ({ q := r.2.1, lastTs := lastArr t1 rest, sessionOpen := r.2.2.1,
           dead := r.2.2.2.isSome, trace := [] ++ r.1 } : SimState)
      else ⟨e :: arrivalsOf rest, lastArr t1 rest, false, false, []⟩) = _
    rw [if_pos hT]
    simp only [hrun, hrem]
    rfl
  rw [hfinal]
  have hcf := callFree_drainQueue ctx.fs ctx.verbose ctx.opFails ctx.folder
      (e :: arrivalsOf rest)
  refine ⟨rfl, ?_, ?_, rfl⟩
  · show List.countP isConnectCall (Output.connectCall ::
      ((drainQueue ctx.fs ctx.verbose ctx.opFails ctx.folder (e :: arrivalsOf rest)).1
        ++ [Output.disconnectCall])) = 1
    rw [List.countP_cons_of_pos _ _ (by rfl), List.countP_append,
      countP_connect_of_callFree hcf]
    rfl
  · show List.countP isDisconnectCall (Output.connectCall ::
      ((drainQueue ctx.fs ctx.verbose ctx.opFails ctx.folder (e :: arrivalsOf rest)).1
        ++ [Output.disconnectCall])) = 1
    rw [List.countP_cons_of_neg _ _ (by simp [isDisconnectCall]), List.countP_append,
      countP_disconnect_of_callFree hcf]
    rfl

/-- Witness for C8: a two-event burst (arrivals at 0 ms and 400 ms, flush
poll at 1000 ms) against a healthy board. -/
theorem C8_burst_witness :
    (simulate ctxGood ⟨[], 0, false, false, []⟩
        (TLItem.arrive (ChangeEvent.create "root/a") 0 ::
          [TLItem.arrive (ChangeEvent.modify "root/a") 400] ++ [TLItem.poll 1000])).trace
      = Output.connectCall ::
          (drainQueue ctxGood.fs ctxGood.verbose ctxGood.opFails ctxGood.folder
            (ChangeEvent.create "root/a" ::
              arrivalsOf [TLItem.arrive (ChangeEvent.modify "root/a") 400])).1
          ++ [Output.disconnectCall] ∧
    ((simulate ctxGood ⟨[], 0, false, false, []⟩
        (TLItem.arrive (ChangeEvent.create "root/a") 0 ::
          [TLItem.arrive (ChangeEvent.modify "root/a") 400] ++
            [TLItem.poll 1000])).trace).countP isConnectCall = 1 ∧
    ((simulate ctxGood ⟨[], 0, false, false, []⟩
        (TLItem.arrive (ChangeEvent.create "root/a") 0 ::
          [TLItem.arrive (ChangeEvent.modify "root/a") 400] ++
            [TLItem.poll 1000])).trace).countP isDisconnectCall = 1 ∧
    (simulate ctxGood ⟨[], 0, false, false, []⟩
        (TLItem.arrive (ChangeEvent.create "root/a") 0 ::
          [TLItem.arrive (ChangeEvent.modify "root/a") 400] ++
            [TLItem.poll 1000])).q = [] :=
  C8_burst_single_cycle ctxGood (ChangeEvent.create "root/a") 0 0 1000
    [TLItem.arrive (ChangeEvent.modify "root/a") 400]
    (by decide) (by decide) (by decide) (by decide) rfl

/-! ## Claim C9 — per-item failure handling -/

/-- C9, counterexample: with verbose off (the default) the constructor
replaces the client's error hook with a no-op, so even when every remote
operation fails the drain of two creates produces no failure output at
all, while still issuing both uploads in order and consuming both items —
contradicting the claim that such failures are logged. -/
theorem C9_counterexample :
    ((drainQueue (fun _ => PathKind.file) false allFail "root"
        [ChangeEvent.create "root/a", ChangeEvent.create "root/b"]).1).countP isErrLog
      = 0 ∧
    opsOf (drainQueue (fun _ => PathKind.file) false allFail "root"
        [ChangeEvent.create "root/a", ChangeEvent.create "root/b"]).1
      = [RemoteOp.put "root/a" "/a", RemoteOp.put "root/b" "/b"] ∧
    (drainQueue (fun _ => PathKind.file) false allFail "root"
        [ChangeEvent.create "root/a", ChangeEvent.create "root/b"]).2.1 = [] := by
  decide

/-- C9 (amended): a remote-operation failure never raises and never aborts
the batch or the connection: every item is consumed exactly once (none
re-queued) and the issued operations are the per-event operations in
order, whichever operations fail; the failure is reported through the
client's error hook, which is active only in verbose mode — with verbose
off the hook is a no-op and the failure goes unlogged. -/
theorem C9_failed_item (fs : String → PathKind) (verbose : Bool)
    (opf : RemoteOp → Bool) (folder f1 : String) (q : List ChangeEvent)
    (h : ∀ e ∈ q, (dispatchEvent fs verbose opf folder e).2 = none)
    (hf : opf (RemoteOp.put f1 (translatePath folder f1)) = true) :
    (drainQueue fs verbose opf folder q).2.1 = [] ∧
    (drainQueue fs verbose opf folder q).2.2 = none ∧
    opsOf (drainQueue fs verbose opf folder q).1
      = (q.map fun e => opsOf (dispatchEvent fs verbose opf folder e).1).flatten ∧
    (copyFile verbose opf folder f1).countP isErrLog = if verbose then 1 else 0 := by
  have hd := drainQueue_of_no_err fs verbose opf folder q h
  refine ⟨by rw [hd], by rw [hd], ?_, ?_⟩
  · rw [hd]
    show opsOf (q.map fun e => (dispatchEvent fs verbose opf folder e).1).flatten = _
    rw [opsOf_flatten, List.map_map]
    rfl
  · simp only [copyFile, clientErrorLogs, hf, Bool.true_and]
    cases verbose
    · simp [List.countP_append, List.countP_cons, isErrLog]
    · simp [List.countP_append, List.countP_cons, isErrLog]

/-- Witness for C9: a one-event queue whose upload fails, in verbose mode
(the failure is reported once) — applied to `allFail` and `root/a`. -/
theorem C9_failed_item_witness :
    (drainQueue (fun _ => PathKind.file) true allFail "root"
        [ChangeEvent.create "root/a"]).2.1 = [] ∧
    (drainQueue (fun _ => PathKind.file) true allFail "root"
        [ChangeEvent.create "root/a"]).2.2 = none ∧
    opsOf (drainQueue (fun _ => PathKind.file) true allFail "root"
        [ChangeEvent.create "root/a"]).1
      = (([ChangeEvent.create "root/a"]).map fun e =>
          opsOf (dispatchEvent (fun _ => PathKind.file) true allFail "root" e).1).flatten ∧
    (copyFile true allFail "root" "root/a").countP isErrLog = 1 :=
  C9_failed_item (fun _ => PathKind.file) true allFail "root" "root/a"
    [ChangeEvent.create "root/a"] (by decide) (by decide)

/-! ## Claim C10 — Move with a missing destination -/

/-- C10: a Move whose destination does not exist at dispatch time issues
no remote operation, raises nothing, logs the unsupported-move message
exactly once, and produces exactly the same result as a Move whose
destination is a directory — the missing-destination case is folded into
the unsupported branch. -/
theorem C10_move_missing_dest (fs fs2 : String → PathKind) (v : Bool)
    (opf : RemoteOp → Bool) (folder src src2 dst dst2 : String)
    (h : fs dst = PathKind.missing) (h2 : fs2 dst2 = PathKind.directory) :
    opsOf (perform_move fs v opf folder src dst).1 = [] ∧
    (perform_move fs v opf folder src dst).1.count (Output.log unsupportedMoveMsg)
      = 1 ∧
    (perform_move fs v opf folder src dst).2 = none ∧
    perform_move fs v opf folder src dst = perform_move fs2 v opf folder src2 dst2 := by
  have hne : ¬ fs dst = PathKind.file := by
    rw [h]
    intro hc
    cases hc
  have hne2 : ¬ fs2 dst2 = PathKind.file := by
    rw [h2]
    intro hc
    cases hc
  simp only [perform_move, if_neg hne, if_neg hne2]
  refine ⟨?_, ?_, by trivial, by trivial⟩
  · rw [opsOf_append, opsOf_pre]
    rfl
  · rw [List.count_append]
    cases v
    · decide
    · decide

/-- Witness for C10: a Move to the missing path `root/m` and a Move to the
directory `root/d` under `fsMixed`. -/
theorem C10_move_missing_witness :
    opsOf (perform_move fsMixed false noFail "root" "root/s" "root/m").1 = [] ∧
    (perform_move fsMixed false noFail "root" "root/s" "root/m").1.count
      (Output.log unsupportedMoveMsg) = 1 ∧
    (perform_move fsMixed false noFail "root" "root/s" "root/m").2 = none ∧
    perform_move fsMixed false noFail "root" "root/s" "root/m"
      = perform_move fsMixed false noFail "root" "root/s2" "root/d" :=
  C10_move_missing_dest fsMixed fsMixed false noFail "root" "root/s" "root/s2"
    "root/m" "root/d" (by decide) (by decide)

end MPSync
